import Mathlib

/-!
Verification of the ShadowBar agent relay core (shadowbar/relay_server.py,
shadowbar/relay.py, shadowbar/announce.py, shadowbar/address.py) against its
natural-language specification.

The Python sources are shallowly embedded: dictionaries become association
lists, JSON values become an inductive type, wall-clock instants become
integers, and the external libraries (PyNaCl Ed25519, the BIP39 mnemonic
package) become records of abstract functions together with the contracts the
code relies on.  Every definition follows the corresponding source function;
definitions whose doc comment starts with "Modelled from the spec" instead
follow the specification's words and exist only to be compared with the
source-derived ones.
-/

set_option maxRecDepth 100000

namespace Shadowbar

/-! ## Association-list model of Python dictionaries -/

/-- Membership lookup in a Python `dict`, modelled as an association list:
returns the value bound to key `k`, if any. -/
def alook {κ α : Type} [BEq κ] : List (κ × α) → κ → Option α
  | [], _ => none
  | (k2, v) :: r, k => if k2 == k then some v else alook r k

/-- `del d[k]`: remove the binding for `k` (no-op when absent). -/
def adel {κ α : Type} [BEq κ] (l : List (κ × α)) (k : κ) : List (κ × α) :=
  l.filter (fun p => !(p.1 == k))

/-- `d[k] = v`: bind `k` to `v`.  A Python dict is a key-to-value map; the
position of the binding in the list representation is immaterial to every
property proved below, so the new binding is simply consed on front. -/
def aset {κ α : Type} [BEq κ] (l : List (κ × α)) (k : κ) (v : α) : List (κ × α) :=
  (k, v) :: adel l k

theorem alook_aset_self {κ α : Type} [BEq κ] [LawfulBEq κ]
    (l : List (κ × α)) (k : κ) (v : α) : alook (aset l k v) k = some v := by
  simp [aset, alook]

theorem alook_adel_ne {κ α : Type} [BEq κ] [LawfulBEq κ]
    (l : List (κ × α)) (k k' : κ) (h : k' ≠ k) :
    alook (adel l k) k' = alook l k' := by
  induction l with
  | nil => rfl
  | cons p r ih =>
    obtain ⟨k2, v2⟩ := p
    by_cases h2 : k2 == k
    · have : k2 = k := by exact eq_of_beq h2
      subst this
      have : (k2 == k') = false := by
        exact beq_false_of_ne (fun he => h he.symm)
      simp [adel, alook, h2, this] at *
      simpa [adel] using ih
    · by_cases h3 : k2 == k'
      · simp [adel, alook, h2, h3]
      · simp [adel, alook, h2, h3]
        simpa [adel] using ih

theorem alook_adel_self {κ α : Type} [BEq κ] [LawfulBEq κ]
    (l : List (κ × α)) (k : κ) : alook (adel l k) k = none := by
  induction l with
  | nil => rfl
  | cons p r ih =>
    obtain ⟨k2, v2⟩ := p
    by_cases h2 : k2 == k
    · simpa [adel, alook, h2] using ih
    · simp [adel, alook, h2]
      simpa [adel] using ih

theorem alook_aset_ne {κ α : Type} [BEq κ] [LawfulBEq κ]
    (l : List (κ × α)) (k k' : κ) (v : α) (h : k' ≠ k) :
    alook (aset l k v) k' = alook l k' := by
  have hb : (k == k') = false := beq_false_of_ne (fun he => h he.symm)
  simp only [aset, alook, hb, Bool.false_eq_true, if_false]
  exact alook_adel_ne l k k' h

/-! ## Hex encoding (`bytes.hex()` / `bytes.fromhex`) -/

/-- The sixteen lowercase hex digit characters, `0`-`9` then `a`-`f`. -/
def hexDigitChars : List Char :=
  (List.range 16).map (fun n => Char.ofNat (if n < 10 then 48 + n else 87 + n))

/-- The lowercase hex digit for a value below 16. -/
def hexDigit (n : Nat) : Char := hexDigitChars.getD n '0'

/-- The two lowercase hex digits of one byte, as produced by `bytes.hex()`. -/
def byteToHex (b : Nat) : List Char := [hexDigit (b / 16), hexDigit (b % 16)]

/-- Characters of the lowercase hex encoding of a byte string. -/
def bytesToHexChars : List Nat → List Char
  | [] => []
  | b :: r => byteToHex b ++ bytesToHexChars r

/-- `bytes.hex()`: lowercase hex string of a byte string, no prefix. -/
def bytesToHex (bs : List Nat) : String := String.mk (bytesToHexChars bs)

/-- Value of one hex digit character (both cases), as accepted by
`bytes.fromhex`; `none` for a non-hex character. -/
def hexVal (c : Char) : Option Nat :=
  if '0' ≤ c ∧ c ≤ '9' then some (c.toNat - 48)
  else if 'a' ≤ c ∧ c ≤ 'f' then some (c.toNat - 87)
  else if 'A' ≤ c ∧ c ≤ 'F' then some (c.toNat - 55)
  else none

/-- `bytes.fromhex` on a character list: pairs of hex digits become bytes;
an odd length or a non-hex character is a `ValueError`, modelled as `none`.
(The Python function also tolerates ASCII spaces between pairs; no string in
the embedded code ever contains one.) -/
def hexCharsToBytes : List Char → Option (List Nat)
  | [] => some []
  | [_] => none
  | c1 :: c2 :: r =>
    match hexVal c1, hexVal c2, hexCharsToBytes r with
    | some h, some l, some bs => some ((16 * h + l) :: bs)
    | _, _, _ => none

/-- `bytes.fromhex` on a string. -/
def hexToBytes (s : String) : Option (List Nat) := hexCharsToBytes s.data

theorem hexVal_hexDigit : ∀ n, n < 16 → hexVal (hexDigit n) = some n := by decide

theorem hexCharsToBytes_bytesToHexChars (bs : List Nat)
    (h : ∀ b ∈ bs, b < 256) : hexCharsToBytes (bytesToHexChars bs) = some bs := by
  induction bs with
  | nil => rfl
  | cons b r ih =>
    have hb : b < 256 := h b (by simp)
    have hdiv : b / 16 < 16 := by omega
    have hmod : b % 16 < 16 := Nat.mod_lt _ (by omega)
    have hrest : hexCharsToBytes (bytesToHexChars r) = some r :=
      ih (fun x hx => h x (by simp [hx]))
    have hb16 : 16 * (b / 16) + b % 16 = b := by omega
    simp [bytesToHexChars, byteToHex, hexCharsToBytes,
      hexVal_hexDigit _ hdiv, hexVal_hexDigit _ hmod, hrest, hb16]

theorem hexToBytes_bytesToHex (bs : List Nat) (h : ∀ b ∈ bs, b < 256) :
    hexToBytes (bytesToHex bs) = some bs :=
  hexCharsToBytes_bytesToHexChars bs h

theorem hexDigit_mem (n : Nat) : hexDigit n ∈ hexDigitChars := by
  by_cases h : n < hexDigitChars.length
  · unfold hexDigit
    rw [List.getD_eq_getElem _ _ h]
    exact List.getElem_mem _
  · unfold hexDigit
    rw [List.getD_eq_default _ _ (by omega)]
    decide

theorem bytesToHexChars_subset (bs : List Nat) :
    ∀ c ∈ bytesToHexChars bs, c ∈ hexDigitChars := by
  induction bs with
  | nil => intro c hc; cases hc
  | cons b r ih =>
    intro c hc
    rcases List.mem_append.mp hc with h1 | h2
    · simp only [byteToHex, List.mem_cons, List.not_mem_nil, or_false] at h1
      rcases h1 with h1 | h1 <;> (subst h1; exact hexDigit_mem _)
    · exact ih c h2

theorem length_bytesToHexChars (bs : List Nat) :
    (bytesToHexChars bs).length = 2 * bs.length := by
  induction bs with
  | nil => rfl
  | cons b r ih => simp [bytesToHexChars, byteToHex, ih]; omega

/-! ## Python string primitives (slicing by code points) -/

/-- Python `s[n:]` (strings index by code points, as does `List Char`). -/
def strDrop (s : String) (n : Nat) : String := String.mk (s.data.drop n)

/-- Python `s[:n]`. -/
def strTake (s : String) (n : Nat) : String := String.mk (s.data.take n)

/-- Python `s[-n:]`. -/
def strTakeRight (s : String) (n : Nat) : String :=
  String.mk (s.data.drop (s.data.length - n))

/-- Python `len(s)`. -/
def strLen (s : String) : Nat := s.data.length

/-- Python `s.startswith(p)`. -/
def pyStartswith (s p : String) : Bool := p.data.isPrefixOf s.data

theorem pyStartswith_append (p s : String) : pyStartswith (p ++ s) p = true := by
  simp [pyStartswith, List.isPrefixOf_iff_prefix]

theorem strDrop_0x (s : String) : strDrop ("0x" ++ s) 2 = s := by
  show String.mk ((("0x" ++ s).data).drop 2) = s
  rw [String.data_append]
  rfl

/-! ## JSON values and Python's `json.dumps`

Wire frames are JSON texts; `json.loads` turns them into Python values.  The
embedding works directly with the parsed value. -/

/-- A parsed JSON value (the integer case suffices: the embedded code never
places a float in a message — timestamps are `int(time.time())`). -/
inductive JVal where
  | jstr (s : String)
  | jnum (n : Int)
  | jbool (b : Bool)
  | jnull
  | jarr (xs : List JVal)
  | jobj (fields : List (String × JVal))

/-- `message.get(k)` on a parsed JSON object (`none` on a non-object or a
missing key). -/
def jget (v : JVal) (k : String) : Option JVal :=
  match v with
  | .jobj fs => alook fs k
  | _ => none

/-- `message.get(k)` projected to a string value. -/
def jgetStr (v : JVal) (k : String) : Option String :=
  match jget v k with
  | some (.jstr s) => some s
  | _ => none

/-- `message.get(k)` projected to an integer value. -/
def jgetNum (v : JVal) (k : String) : Option Int :=
  match jget v k with
  | some (.jnum n) => some n
  | _ => none

/-- `{k2: v for k2, v in message.items() if k2 != k}` (relay_server.py:94):
the object without field `k`. -/
def jremove (v : JVal) (k : String) : JVal :=
  match v with
  | .jobj fs => .jobj (fs.filter (fun p => !(p.1 == k)))
  | other => other

/-- `message[k] = v` on a parsed JSON object. -/
def jset (m : JVal) (k : String) (v : JVal) : JVal :=
  match m with
  | .jobj fs => .jobj (aset fs k v)
  | other => other

/-- One escaped character of `json.dumps` output with the default
`ensure_ascii=True`: the two-character escapes, `\uXXXX` for other characters
outside `0x20`–`0x7e`, surrogate pairs above `0xffff`. -/
def jsonEscapeChar (c : Char) : List Char :=
  if c = '"' then ['\\', '"']
  else if c = '\\' then ['\\', '\\']
  else if c = '\n' then ['\\', 'n']
  else if c = '\r' then ['\\', 'r']
  else if c = '\t' then ['\\', 't']
  else if c.toNat = 8 then ['\\', 'b']
  else if c.toNat = 12 then ['\\', 'f']
  else if c.toNat < 32 ∨ c.toNat > 126 then
    (if c.toNat < 65536 then
      '\\' :: 'u' :: [hexDigit (c.toNat / 4096 % 16), hexDigit (c.toNat / 256 % 16),
        hexDigit (c.toNat / 16 % 16), hexDigit (c.toNat % 16)]
    else
      (let m := c.toNat - 65536
       let hi := 55296 + m / 1024
       let lo := 56320 + m % 1024
       ['\\', 'u', hexDigit (hi / 4096 % 16), hexDigit (hi / 256 % 16),
        hexDigit (hi / 16 % 16), hexDigit (hi % 16),
        '\\', 'u', hexDigit (lo / 4096 % 16), hexDigit (lo / 256 % 16),
        hexDigit (lo / 16 % 16), hexDigit (lo % 16)]))
  else [c]

/-- A JSON string literal as produced by `json.dumps`. -/
def jsonQuote (s : String) : String :=
  "\"" ++ String.mk (s.data.flatMap jsonEscapeChar) ++ "\""

/-- Lexicographic order on code-point lists — how Python compares strings. -/
def charListLt : List Char → List Char → Bool
  | [], [] => false
  | [], _ :: _ => true
  | _ :: _, [] => false
  | c :: cs, d :: ds =>
    if c.toNat < d.toNat then true
    else if d.toNat < c.toNat then false
    else charListLt cs ds

/-- Python's `<` on strings: lexicographic by code points. -/
def pyStrLt (a b : String) : Bool := charListLt a.data b.data

/-- Insert a field into a key-sorted field list (Python's `sorted` on
dictionary keys compares strings by code points). -/
def insertField (p : String × JVal) : List (String × JVal) → List (String × JVal)
  | [] => [p]
  | q :: r => if pyStrLt p.1 q.1 then p :: q :: r else q :: insertField p r

/-- Sort a field list by key. -/
def sortFields (fs : List (String × JVal)) : List (String × JVal) :=
  fs.foldr insertField []

/-- Nesting-depth budget of the serializer.  CPython's `json.dumps` itself
raises `RecursionError` on deeply nested values; below the budget — which
covers every message of this protocol many times over (the deepest, an
ANNOUNCE, nests 3 levels) — the model agrees with `json.dumps` exactly.
The recursion is on this explicit bound so that every theorem about a
concrete message evaluates inside the kernel. -/
def jsonFuel : Nat := 32

/-- `sort_keys=True`: sort the keys of every object, at every nesting
level (recursion bounded by `fuel`, see `jsonFuel`). -/
def sortJsonF : Nat → JVal → JVal
  | 0, v => v
  | fuel + 1, .jarr xs => .jarr (xs.map (sortJsonF fuel))
  | fuel + 1, .jobj fs =>
    .jobj (sortFields (fs.map (fun p => (p.1, sortJsonF fuel p.2))))
  | _ + 1, v => v

/-- Join serialized items with a separator. -/
def sepJoin (isep : String) : List String → String
  | [] => ""
  | [x] => x
  | x :: y :: r => x ++ isep ++ sepJoin isep (y :: r)

/-- Serialize a JSON value with item separator `isep` and key separator
`ksep` (no key sorting; see `pyDumpsSorted`; recursion bounded by `fuel`,
see `jsonFuel`). -/
def dumpValF (isep ksep : String) : Nat → JVal → String
  | 0, _ => ""
  | _ + 1, .jstr s => jsonQuote s
  | _ + 1, .jnum n => toString n
  | _ + 1, .jbool b => if b then "true" else "false"
  | _ + 1, .jnull => "null"
  | fuel + 1, .jarr xs =>
    "[" ++ sepJoin isep (xs.map (dumpValF isep ksep fuel)) ++ "]"
  | fuel + 1, .jobj fs =>
    "\x7b" ++ sepJoin isep
      (fs.map (fun p => jsonQuote p.1 ++ ksep ++ dumpValF isep ksep fuel p.2))
      ++ "\x7d"

/-- `json.dumps(x, sort_keys=True)` with the DEFAULT separators: when no
`separators` argument is given and `indent is None`, Python uses
`(", ", ": ")` — a space after every comma and after every colon. -/
def pyDumpsSorted (v : JVal) : String :=
  dumpValF ", " ": " jsonFuel (sortJsonF jsonFuel v)

/-- Modelled from the spec: the "canonical form for signing" — JSON with keys
sorted lexicographically at every nesting level and *no insignificant
whitespace* (compact separators).  Defined only to be compared with
`pyDumpsSorted`, the serialization the source actually signs. -/
def specCanonDumps (v : JVal) : String :=
  dumpValF "," ":" jsonFuel (sortJsonF jsonFuel v)

/-! ## The external Ed25519 library (PyNaCl) and the BIP39 mnemonic library

The repository calls `nacl.signing.SigningKey` / `VerifyKey` and
`mnemonic.Mnemonic`; they are not repository code, so they are embedded as
records of abstract functions carrying exactly the contract the sources rely
on.  Theorems about code that uses them quantify over any implementation. -/

/-- Abstract Ed25519: `pub` is the verify key of a 32-byte signing seed
(`SigningKey(seed).verify_key`), `sigOf` the detached signature
(`SigningKey(seed).sign(msg).signature`), `verifies` the boolean outcome of
`VerifyKey(pk).verify(msg, sig)` (messages are the UTF-8 strings the code
signs).  `verify_sign` is the library's correctness guarantee. -/
structure Ed25519 where
  pub : List Nat → List Nat
  sigOf : List Nat → String → List Nat
  verifies : List Nat → String → List Nat → Bool
  verify_sign : ∀ sk m, verifies (pub sk) m (sigOf sk m) = true

/-- Abstract BIP39 mnemonic library: `toSeed` is the deterministic 64-byte
seed expansion `Mnemonic.to_seed`, `check` the checksum validation
`Mnemonic.check`. -/
structure Bip39 where
  toSeed : String → List Nat
  check : String → Bool

/-- A concrete idealized Ed25519 instance, used to evaluate the models on
closed inputs: the verify key is the seed itself and a signature is the seed
followed by the code points of the signed text, so that verification succeeds
exactly on the signed message. -/
def idealEd : Ed25519 where
  pub := fun sk => sk
  sigOf := fun sk m => sk ++ m.data.map Char.toNat
  verifies := fun vk m s => s == vk ++ m.data.map Char.toNat
  verify_sign := by intro sk m; simp

/-- A concrete mnemonic instance for closed evaluation: a fixed all-zero
64-byte seed and an always-true checksum. -/
def idealMnemo : Bip39 where
  toSeed := fun _ => List.replicate 64 0
  check := fun _ => true

/-! ## shadowbar/address.py -/

/-- The dictionary returned by `address.generate` / `recover` / `load`
(address.py): `signing_key` is the 32-byte Ed25519 seed. -/
structure AddressData where
  address : String
  short_address : String
  email : String
  email_active : Bool
  seed_phrase : Option String
  signing_key : List Nat

/-- Default of the `SHADOWBAR_EMAIL_DOMAIN` environment variable
(address.py:36). -/
def SHADOWBAR_EMAIL_DOMAIN : String := "mail.shadowbar.internal"

namespace Address

/-- `address.generate()` (address.py:39-91) after `mnemo.generate` returned
`seed_phrase`: derive the seed, build the signing key from its first 32
bytes, render the address as `"0x" + public_key_bytes.hex()`. -/
def generate (M : Bip39) (E : Ed25519) (seed_phrase : String) : AddressData :=
  let seed := (M.toSeed seed_phrase).take 32
  let public_key_bytes := E.pub seed
  let address := "0x" ++ bytesToHex public_key_bytes
  let short_address := strTake address 6 ++ "..." ++ strTakeRight address 4
  let email := strTake address 10 ++ "@" ++ SHADOWBAR_EMAIL_DOMAIN
  { address := address
    short_address := short_address
    email := email
    email_active := false
    seed_phrase := some seed_phrase
    signing_key := seed }

/-- `address.recover(seed_phrase)` (address.py:94-144): `ValueError` on a
phrase failing checksum validation, otherwise the same derivation as
`generate` without the stored phrase. -/
def recover (M : Bip39) (E : Ed25519) (seed_phrase : String) :
    Except String AddressData :=
  if M.check seed_phrase = false then .error "Invalid recovery phrase"
  else
    let seed := (M.toSeed seed_phrase).take 32
    let public_key_bytes := E.pub seed
    let address := "0x" ++ bytesToHex public_key_bytes
    let short_address := strTake address 6 ++ "..." ++ strTakeRight address 4
    let email := strTake address 10 ++ "@" ++ SHADOWBAR_EMAIL_DOMAIN
    .ok { address := address
          short_address := short_address
          email := email
          email_active := false
          seed_phrase := none
          signing_key := seed }

/-- The on-disk state `address.load` reads: `keys/agent.key` content when the
file exists, `keys/recovery.txt` content when it exists, and the
`[agent]` section of `config.toml` when present. -/
structure KeyStore where
  keyFile : Option (List Nat)
  recovery : Option String
  configEmail : Option String
  configEmailActive : Option Bool

/-- `address.load(sb_dir)` (address.py:195-265).  Returns `None` when the key
file is missing.  `SigningKey(key_bytes)` raises for a seed that is not
exactly 32 bytes; the surrounding `except Exception: return None` turns that
into `None` as well.  `seed_phrase = text.strip()` is kept only when truthy
(non-empty). -/
def load (E : Ed25519) (ks : KeyStore) : Option AddressData :=
  match ks.keyFile with
  | none => none
  | some key_bytes =>
    if key_bytes.length ≠ 32 then none
    else
      let public_key_bytes := E.pub key_bytes
      let address := "0x" ++ bytesToHex public_key_bytes
      let short_address := strTake address 6 ++ "..." ++ strTakeRight address 4
      let emailDefault := strTake address 10 ++ "@" ++ SHADOWBAR_EMAIL_DOMAIN
      let email := match ks.configEmail with
        | some e => e
        | none => emailDefault
      let email_active := match ks.configEmailActive with
        | some b => b
        | none => false
      let seed_phrase := match ks.recovery with
        | some t => if t.trim = "" then none else some t.trim
        | none => none
      some { address := address
             short_address := short_address
             email := email
             email_active := email_active
             seed_phrase := seed_phrase
             signing_key := key_bytes }

/-- `address.verify(address, message, signature)` (address.py:268-310):
`False` unless the address starts with `0x` and has length 66; the public key
is the hex-decoded remainder (any decoding or library error is caught and
becomes `False`). -/
def verify (E : Ed25519) (address : String) (message : String)
    (signature : List Nat) : Bool :=
  if pyStartswith address "0x" = false ∨ strLen address ≠ 66 then false
  else
    match hexToBytes (strDrop address 2) with
    | none => false
    | some public_key_bytes =>
      if public_key_bytes.length = 32 then E.verifies public_key_bytes message signature
      else false

/-- `address.sign(address_data, message)` (address.py:313-332): the detached
64-byte signature by the stored signing key. -/
def sign (E : Ed25519) (address_data : AddressData) (message : String) : List Nat :=
  E.sigOf address_data.signing_key message

end Address

/-! ## shadowbar/announce.py -/

/-- The ANNOUNCE dictionary built *without* a signature
(announce.py:62-68). -/
def announceBase (address : String) (timestamp : Int) (summary : String)
    (endpoints : List String) : JVal :=
  .jobj [("type", .jstr "ANNOUNCE"), ("address", .jstr address),
         ("timestamp", .jnum timestamp), ("summary", .jstr summary),
         ("endpoints", .jarr (endpoints.map .jstr))]

/-- The exact bytes `create_announce_message` signs:
`json.dumps(message, sort_keys=True).encode('utf-8')` (announce.py:72-73). -/
def announceSignedBytes (address : String) (timestamp : Int) (summary : String)
    (endpoints : List String) : String :=
  pyDumpsSorted (announceBase address timestamp summary endpoints)

/-- `announce.create_announce_message(address_data, summary, endpoints)`
(announce.py:22-85) with `int(time.time())` passed in as `timestamp`: build
the message without a signature, sign the sorted-keys JSON serialization, and
append the signature as a hex string with no `0x` prefix. -/
def create_announce_message (E : Ed25519) (address_data : AddressData)
    (summary : String) (endpoints : List String) (timestamp : Int) : JVal :=
  let message := announceBase address_data.address timestamp summary endpoints
  let message_json := pyDumpsSorted message
  let signature_bytes := Address.sign E address_data message_json
  let signature_hex := bytesToHex signature_bytes
  jset message "signature" (.jstr signature_hex)

/-! ## shadowbar/relay_server.py -/

/-- `verify_signature(message)` (relay_server.py:68-109): extract the
`signature` and `address` fields (`False` when missing, empty, or — via the
catch-all `except` — not strings), strip a `0x` prefix from each, re-serialize
the message without its `signature` field with `sort_keys=True`, hex-decode,
and verify.  Any exception (bad hex, wrong key size, bad signature) yields
`False`. -/
def verify_signature (E : Ed25519) (message : JVal) : Bool :=
  match jgetStr message "signature", jgetStr message "address" with
  | some signature_hex, some address =>
    if signature_hex = "" ∨ address = "" then false
    else
      let sig_hex := if pyStartswith signature_hex "0x" then strDrop signature_hex 2
        else signature_hex
      let public_key_hex := if pyStartswith address "0x" then strDrop address 2
        else address
      let message_bytes := pyDumpsSorted (jremove message "signature")
      match hexToBytes sig_hex, hexToBytes public_key_hex with
      | some signature_bytes, some public_key_bytes =>
        if public_key_bytes.length = 32 then
          E.verifies public_key_bytes message_bytes signature_bytes
        else false
      | _, _ => false
  | _, _ => false   -- a non-string or missing field raises / is falsy: False

/-- A registry entry (`RegisteredAgent`, relay_server.py:44-52).  `summary`
and `endpoints` keep whatever JSON value the message carried
(`message.get("summary", "")`, `message.get("endpoints", [])`); times are
wall-clock seconds; `wsId` identifies the control websocket. -/
structure RegisteredAgent where
  address : String
  summary : JVal
  endpoints : JVal
  wsId : Nat
  last_announce : Int
  last_heartbeat : Int

/-- The broker state one control-connection message acts on: the binding of
this connection (`agent_address`, relay_server.py:128), the shared registry
`agents` and the shared `pending_inputs` table (input_id to caller
websocket). -/
structure CtrlConn where
  agent_address : Option String
  agents : List (String × RegisteredAgent)
  pending : List (String × Nat)

/-- Result of handling one control-connection message: the new state, the
ERROR text sent back on this connection (if any), and the caller websocket an
OUTPUT was forwarded to (if any). -/
structure CtrlStepResult where
  st : CtrlConn
  errorReply : Option String
  forwardedTo : Option Nat

/-- One iteration of the `announce_endpoint` receive loop
(relay_server.py:131-176) on a parsed message, with `time.time()` passed as
`now` and this connection's websocket as `myWs`:
ANNOUNCE with a bad signature is answered `ERROR "Invalid signature"` and the
loop continues; a verified ANNOUNCE binds the connection and writes the
registry entry; OUTPUT is forwarded to and deletes a matching pending entry;
HEARTBEAT refreshes `last_heartbeat` of the *bound* address (its own fields
are never inspected); any other type falls through silently. -/
def announce_step (E : Ed25519) (myWs : Nat) (now : Int) (st : CtrlConn)
    (message : JVal) : CtrlStepResult :=
  if jgetStr message "type" = some "ANNOUNCE" then
    if verify_signature E message = false then
      ⟨st, some "Invalid signature", none⟩
    else
      match jgetStr message "address" with
      | some agent_address =>
        let entry : RegisteredAgent :=
          { address := agent_address
            summary := (jget message "summary").getD (.jstr "")
            endpoints := (jget message "endpoints").getD (.jarr [])
            wsId := myWs
            last_announce := now
            last_heartbeat := now }
        ⟨{ st with agent_address := some agent_address,
                   agents := aset st.agents agent_address entry }, none, none⟩
      | none => ⟨st, none, none⟩   -- unreachable: verification requires a string address
  else if jgetStr message "type" = some "OUTPUT" then
    match jgetStr message "input_id" with
    | some input_id =>
      match alook st.pending input_id with
      | some client_ws =>
        ⟨{ st with pending := adel st.pending input_id }, none, some client_ws⟩
      | none => ⟨st, none, none⟩
    | none => ⟨st, none, none⟩
  else if jgetStr message "type" = some "HEARTBEAT" then
    match st.agent_address with
    | some bound =>
      match alook st.agents bound with
      | some entry =>
        let entry2 := { entry with last_heartbeat := now }
        ⟨{ st with agents := aset st.agents bound entry2 }, none, none⟩
      | none => ⟨st, none, none⟩
    | none => ⟨st, none, none⟩
  else ⟨st, none, none⟩

/-- The fields `input_endpoint` reads from the one frame a dispatch
connection carries (relay_server.py:204-217); a missing key is `none`. -/
structure DispatchIn where
  msgType : String
  input_id : Option String
  toAddr : Option String
  prompt : Option String
  fromAddr : Option String

/-- Result of the dispatch exchange up to the forward: the new pending table,
the ERROR text sent to the caller (if any), and the
`(input_id, prompt, from_address)` INPUT payload forwarded to the target
agent (if any). -/
structure DispatchResult where
  pending : List (String × Nat)
  errorReply : Option String
  forwarded : Option (String × String × String)

/-- Python truthiness of an optional string: `None` and `""` are falsy. -/
def truthyS : Option String → Bool
  | none => false
  | some s => !(s == "")

/-- `input_endpoint` (relay_server.py:202-258) up to the forward, for caller
websocket `callerWs`; `sendOk` tells whether `agent.websocket.send_json`
succeeds.  Field presence is `not all([input_id, target_address, prompt])`
— truthiness, so empty strings count as missing.  There is no `input_id`
uniqueness check: `pending_inputs[input_id] = ...` overwrites. -/
def input_endpoint_step (agents : List (String × RegisteredAgent))
    (pending : List (String × Nat)) (callerWs : Nat) (sendOk : Bool)
    (m : DispatchIn) : DispatchResult :=
  if m.msgType ≠ "INPUT" then ⟨pending, some "Expected INPUT message", none⟩
  else if !(truthyS m.input_id && truthyS m.toAddr && truthyS m.prompt) then
    ⟨pending, some "Missing required fields: input_id, to, prompt", none⟩
  else
    match m.input_id, m.toAddr, m.prompt with
    | some input_id, some target_address, some prompt =>
      if (alook agents target_address).isNone then
        ⟨pending, some ("Agent not found or offline: " ++ strTake target_address 16 ++ "..."), none⟩
      else
        let pending1 := aset pending input_id callerWs
        if sendOk then
          ⟨pending1, none, some (input_id, prompt, (m.fromAddr.getD "unknown"))⟩
        else
          -- send raised: delete the pending record, report failure
          ⟨adel pending1 input_id, some "Failed to reach agent", none⟩
    | _, _, _ => ⟨pending, none, none⟩   -- unreachable: the truthiness test failed already

/-- One pass of `cleanup_stale_agents` (relay_server.py:409-424) at time
`now`: collect the addresses whose `last_announce` is more than
`stale_threshold = 120` seconds old (`last_heartbeat` is not consulted), then
delete each from the registry.  No websocket is closed. -/
def cleanup_stale_agents (now : Int) (agents : List (String × RegisteredAgent)) :
    List (String × RegisteredAgent) :=
  let stale_addresses :=
    (agents.filter (fun p => decide (now - p.2.last_announce > 120))).map Prod.fst
  stale_addresses.foldl (fun acc addr => adel acc addr) agents

/-- Modelled from the spec: the eviction rule of claim C2 — evict exactly
when `now - max(last_announce, last_heartbeat)` exceeds the threshold. -/
def specSweepEvicts (now : Int) (r : RegisteredAgent) : Bool :=
  decide (now - max r.last_announce r.last_heartbeat > 120)

/-! ## shadowbar/relay.py -/

/-- The heartbeat branch of `serve_loop` (relay.py:195-205): on a receive
timeout the loop does `announce_message["timestamp"] = int(...)` and resends
the message — the signature field is NOT recomputed (the source comment reads
"For now, just send without updating signature / TODO: Re-sign message with
new timestamp"). -/
def serve_loop_heartbeat (announce_message : JVal) (t : Int) : JVal :=
  jset announce_message "timestamp" (.jnum t)

/-! ## The control-endpoint connection/registry machine

The registry-bound claim quantifies over every interleaving of connection
opens, (re-)ANNOUNCEs and closes, so the relevant part of
`announce_endpoint` (relay_server.py:116-186) is modelled as a state
machine: per connection the local `agent_address` variable, globally the set
of open connections and the key set of the `agents` registry. -/

/-- Global control-endpoint state: open connection ids, each connection's
bound `agent_address` (relay_server.py:128/147), and the registry's key set
(values are irrelevant to the bound). -/
structure CtrlNet where
  conns : List Nat
  bound : List (Nat × String)
  agents : List String

/-- The events of the registry-bound claim.  `valid` is the outcome of
`verify_signature` on the ANNOUNCE. -/
inductive CtrlEvent where
  | copen (c : Nat)
  | cannounce (c : Nat) (a : String) (valid : Bool)
  | cclose (c : Nat)

/-- One event of the lifecycle, following the code:
`copen` is `websocket.accept()`; a valid `cannounce` executes
`agent_address = message["address"]; agents[agent_address] = ...`
(relay_server.py:147-154) while an invalid one only sends an ERROR and
changes nothing (139-144); `cclose` runs the `finally` block
(182-186): `if agent_address and agent_address in agents: del
agents[agent_address]`. -/
def ctrlStep (s : CtrlNet) (e : CtrlEvent) : CtrlNet :=
  match e with
  | .copen c => if c ∈ s.conns then s else ⟨c :: s.conns, s.bound, s.agents⟩
  | .cannounce c a valid =>
    if c ∈ s.conns then
      if valid then
        ⟨s.conns, aset s.bound c a,
          if a ∈ s.agents then s.agents else s.agents ++ [a]⟩
      else s
    else s
  | .cclose c =>
    if c ∈ s.conns then
      match alook s.bound c with
      | some agent_address =>
        ⟨s.conns.erase c, adel s.bound c, s.agents.erase agent_address⟩
      | none => ⟨s.conns.erase c, adel s.bound c, s.agents⟩
    else s

/-- The empty broker. -/
def ctrlInit : CtrlNet := ⟨[], [], []⟩

/-- Run a trace of events. -/
def ctrlExec (s : CtrlNet) : List CtrlEvent → CtrlNet
  | [] => s
  | e :: es => ctrlExec (ctrlStep s e) es

/-- `true` when the event is not a valid ANNOUNCE that re-binds connection
`c` to a different address than its current one. -/
def noRebindCond (s : CtrlNet) : CtrlEvent → Bool
  | .cannounce c a true =>
    (match alook s.bound c with
     | none => true
     | some a2 => a2 == a)
  | _ => true

/-- `true` when no connection in the trace re-ANNOUNCEs (validly) a different
address than the one it is currently bound to. -/
def noRebind (s : CtrlNet) : List CtrlEvent → Bool
  | [] => true
  | e :: es => noRebindCond s e && noRebind (ctrlStep s e) es

/-- The inductive invariant behind the (amended) registry bound: every bound
connection is open, and every registry key is some connection's bound
address. -/
def CtrlInv (s : CtrlNet) : Prop :=
  s.conns.Nodup ∧ s.agents.Nodup ∧
  (∀ c a, alook s.bound c = some a → c ∈ s.conns) ∧
  (∀ x ∈ s.agents, ∃ c, alook s.bound c = some x)

theorem ctrlInv_init : CtrlInv ctrlInit := by
  refine ⟨List.nodup_nil, List.nodup_nil, ?_, ?_⟩
  · intro c a h; simp [ctrlInit, alook] at h
  · intro x hx; simp [ctrlInit] at hx

theorem ctrlInv_step (s : CtrlNet) (e : CtrlEvent) (hI : CtrlInv s)
    (hnr : noRebindCond s e = true) :
    CtrlInv (ctrlStep s e) := by
  obtain ⟨h1, h2, h3, h4⟩ := hI
  cases e with
  | copen c =>
    by_cases hc : c ∈ s.conns
    · simpa [ctrlStep, hc] using ⟨h1, h2, h3, h4⟩
    · simp only [ctrlStep, hc, if_false]
      exact ⟨List.nodup_cons.mpr ⟨hc, h1⟩, h2,
        fun c2 a ha => List.mem_cons_of_mem _ (h3 c2 a ha), h4⟩
  | cannounce c a valid =>
    by_cases hc : c ∈ s.conns
    · cases valid with
      | false => simpa [ctrlStep, hc] using ⟨h1, h2, h3, h4⟩
      | true =>
        simp only [ctrlStep, hc, if_true]
        refine ⟨h1, ?_, ?_, ?_⟩
        · by_cases hmem : a ∈ s.agents
          · simpa [hmem] using h2
          · simp only [hmem, if_false]
            exact List.Nodup.append h2 (List.nodup_singleton a)
              (by simpa [List.disjoint_singleton] using hmem)
        · intro c2 a2 ha2
          by_cases hcc : c2 = c
          · subst hcc; exact hc
          · rw [alook_aset_ne _ _ _ _ hcc] at ha2
            exact h3 c2 a2 ha2
        · intro x hx
          have hx2 : x ∈ s.agents ∨ x = a := by
            by_cases hmem : a ∈ s.agents
            · simp only [hmem, if_true] at hx; exact Or.inl hx
            · simp only [hmem, if_false, List.mem_append, List.mem_singleton] at hx
              exact hx
          rcases hx2 with hx2 | hx2
          · obtain ⟨c2, hc2⟩ := h4 x hx2
            by_cases hcc : c2 = c
            · subst hcc
              -- the no-rebind condition forces x = a
              simp only [noRebindCond, hc2] at hnr
              have hxa : x = a := by simpa using hnr
              subst hxa
              exact ⟨c2, alook_aset_self _ _ _⟩
            · exact ⟨c2, by rw [alook_aset_ne _ _ _ _ hcc]; exact hc2⟩
          · subst hx2
            exact ⟨c, alook_aset_self _ _ _⟩
    · simpa [ctrlStep, hc] using ⟨h1, h2, h3, h4⟩
  | cclose c =>
    by_cases hc : c ∈ s.conns
    · have hconns : (s.conns.erase c).Nodup := h1.erase c
      have hbound : ∀ c2 a2, alook (adel s.bound c) c2 = some a2 →
          c2 ∈ s.conns.erase c := by
        intro c2 a2 ha2
        by_cases hcc : c2 = c
        · subst hcc; rw [alook_adel_self] at ha2; cases ha2
        · rw [alook_adel_ne _ _ _ hcc] at ha2
          exact (List.mem_erase_of_ne hcc).mpr (h3 c2 a2 ha2)
      cases hlk : alook s.bound c with
      | none =>
        simp only [ctrlStep, hc, if_true, hlk]
        refine ⟨hconns, h2, hbound, ?_⟩
        intro x hx
        obtain ⟨c2, hc2⟩ := h4 x hx
        have hcc : c2 ≠ c := by
          intro he; subst he; rw [hlk] at hc2; cases hc2
        exact ⟨c2, by rw [alook_adel_ne _ _ _ hcc]; exact hc2⟩
      | some a0 =>
        simp only [ctrlStep, hc, if_true, hlk]
        refine ⟨hconns, h2.erase a0, hbound, ?_⟩
        intro x hx
        have hx2 : x ≠ a0 ∧ x ∈ s.agents := (h2.mem_erase_iff).mp hx
        obtain ⟨c2, hc2⟩ := h4 x hx2.2
        have hcc : c2 ≠ c := by
          intro he
          subst he
          rw [hlk] at hc2
          injection hc2 with h
          exact hx2.1 h.symm
        exact ⟨c2, by rw [alook_adel_ne _ _ _ hcc]; exact hc2⟩
    · simpa [ctrlStep, hc] using ⟨h1, h2, h3, h4⟩

theorem ctrlInv_exec (s : CtrlNet) (tr : List CtrlEvent) (hI : CtrlInv s)
    (hnr : noRebind s tr = true) : CtrlInv (ctrlExec s tr) := by
  induction tr generalizing s with
  | nil => exact hI
  | cons e es ih =>
    rw [noRebind, Bool.and_eq_true] at hnr
    exact ih (ctrlStep s e) (ctrlInv_step s e hI hnr.1) hnr.2

/-- From the invariant: the registry key set injects by witness choice into
the open connections. -/
theorem ctrlInv_card (s : CtrlNet) (hI : CtrlInv s) :
    s.agents.length ≤ s.conns.length := by
  classical
  obtain ⟨h1, h2, h3, h4⟩ := hI
  have hcard : s.agents.toFinset.card ≤ s.conns.toFinset.card := by
    have hf : ∀ x ∈ s.agents.toFinset, ∃ c, alook s.bound c = some x := by
      intro x hx; exact h4 x (List.mem_toFinset.mp hx)
    refine Finset.card_le_card_of_injOn
      (fun x => if h : ∃ c, alook s.bound c = some x then h.choose else 0) ?_ ?_
    · intro x hx
      have hex := hf x hx
      dsimp only
      rw [dif_pos hex]
      exact List.mem_toFinset.mpr (h3 _ x hex.choose_spec)
    · intro x hx y hy hxy
      have hex := hf x hx
      have hey := hf y hy
      dsimp only at hxy
      rw [dif_pos hex, dif_pos hey] at hxy
      have h1x := hex.choose_spec
      have h1y := hey.choose_spec
      rw [hxy, h1y] at h1x
      exact (Option.some.inj h1x).symm
  calc s.agents.length = s.agents.toFinset.card := (List.toFinset_card_of_nodup h2).symm
    _ ≤ s.conns.toFinset.card := hcard
    _ ≤ s.conns.length := List.toFinset_card_le s.conns

/-! ## Concrete fixtures for closed evaluation -/

/-- An identity produced by the modelled `generate` under the idealized
libraries (seed = 32 zero bytes, address = `"0x" + "00" * 32`). -/
def ad0 : AddressData := Address.generate idealMnemo idealEd "test phrase"

/-- A registry entry as written by a verified ANNOUNCE at time 1000 on
websocket 3. -/
def rec0 : RegisteredAgent :=
  { address := "0xaa", summary := .jstr "", endpoints := .jarr []
    wsId := 3, last_announce := 1000, last_heartbeat := 0 }

/-! ## Claim theorems -/

/-- C2 (code bug evidence): an agent whose `last_announce` is 130 s old but
whose `last_heartbeat` is 20 s fresh is evicted by `cleanup_stale_agents`
even though the spec's rule (`now - max(last_announce, last_heartbeat) >
120`) keeps it; the code consults only `last_announce`, contradicting its own
docstring ("Remove agents that haven't sent heartbeat in 2 minutes"), and
deletes the registry entry without closing the websocket. -/
theorem sweeper_ignores_heartbeat_and_evicts :
    cleanup_stale_agents 130
      [("0xaa", { address := "0xaa", summary := .jstr "", endpoints := .jarr []
                  wsId := 3, last_announce := 0, last_heartbeat := 110 })] = []
    ∧ specSweepEvicts 130
        { address := "0xaa", summary := .jstr "", endpoints := .jarr []
          wsId := 3, last_announce := 0, last_heartbeat := 110 } = false :=
  ⟨rfl, rfl⟩

/-- C9 (counterexample): a key file that exists with 31 bytes makes `load`
return `None` — it does not fail with any `CorruptKey` error (no such error
exists in the code; the wrong-length seed raises inside the `try` and the
bare `except` returns `None`). -/
theorem load_short_key_returns_none_cex :
    Address.load idealEd
      { keyFile := some (List.replicate 31 0), recovery := none
        configEmail := none, configEmailActive := none } = none
    ∧ (some (List.replicate 31 0) : Option (List Nat)) ≠ none :=
  ⟨rfl, by simp⟩

/-- C9 (amended): `load` returns `None` when the key file is missing, and
also returns `None` — rather than failing with a distinguishable error —
when the file exists but its contents are not exactly 32 bytes. -/
theorem load_missing_or_corrupt_returns_none (E : Ed25519) (ks : Address.KeyStore) :
    (ks.keyFile = none → Address.load E ks = none) ∧
    (∀ bs, ks.keyFile = some bs → bs.length ≠ 32 → Address.load E ks = none) := by
  constructor
  · intro h
    simp [Address.load, h]
  · intro bs h hlen
    simp [Address.load, h, hlen]

theorem load_missing_or_corrupt_returns_none_w :
    Address.load idealEd
      { keyFile := some (List.replicate 33 0), recovery := none
        configEmail := none, configEmailActive := none } = none :=
  (load_missing_or_corrupt_returns_none idealEd _).2 (List.replicate 33 0) rfl (by decide)

/-- C10: at the dispatch endpoint an INPUT carrying `input_id`, `to` or
`prompt` as the *empty string* is rejected with the missing-required-fields
ERROR and nothing is forwarded, because `not all([input_id, target_address,
prompt])` tests truthiness, and `""` is falsy. -/
theorem input_empty_field_rejected (agents : List (String × RegisteredAgent))
    (pending : List (String × Nat)) (callerWs : Nat) (sendOk : Bool)
    (m : DispatchIn) (htype : m.msgType = "INPUT")
    (hempty : m.input_id = some "" ∨ m.toAddr = some "" ∨ m.prompt = some "") :
    input_endpoint_step agents pending callerWs sendOk m =
      ⟨pending, some "Missing required fields: input_id, to, prompt", none⟩ := by
  have hfalse : (truthyS m.input_id && truthyS m.toAddr && truthyS m.prompt) = false := by
    rcases hempty with h | h | h <;> simp [truthyS, h]
  simp [input_endpoint_step, htype, hfalse]

theorem input_empty_field_rejected_w :
    input_endpoint_step [] [] 0 true
      { msgType := "INPUT", input_id := some "", toAddr := some "0xaa"
        prompt := some "hi", fromAddr := none } =
      ⟨[], some "Missing required fields: input_id, to, prompt", none⟩ :=
  input_empty_field_rejected [] [] 0 true _ rfl (Or.inl rfl)

/-- C3 (counterexample): with `"u1"` already pending for caller websocket 7,
a second INPUT reusing `input_id = "u1"` is *not* answered with any
DuplicateId ERROR: it is forwarded, and the pending entry is overwritten to
the new caller websocket 9. -/
theorem duplicate_input_id_overwrites_cex :
    (input_endpoint_step [("0xaa", rec0)] [("u1", 7)] 9 true
      { msgType := "INPUT", input_id := some "u1", toAddr := some "0xaa"
        prompt := some "hi", fromAddr := none }).errorReply = none
    ∧ (input_endpoint_step [("0xaa", rec0)] [("u1", 7)] 9 true
        { msgType := "INPUT", input_id := some "u1", toAddr := some "0xaa"
          prompt := some "hi", fromAddr := none }).pending ≠ [("u1", 7)]
    ∧ (input_endpoint_step [("0xaa", rec0)] [("u1", 7)] 9 true
        { msgType := "INPUT", input_id := some "u1", toAddr := some "0xaa"
          prompt := some "hi", fromAddr := none }).forwarded =
        some ("u1", "hi", "unknown") := by
  refine ⟨rfl, ?_, rfl⟩
  decide

/-- C3 (amended): an INPUT whose `input_id` collides with a pending request
is processed like any other: no error is sent, the INPUT is forwarded, and
`pending_inputs[input_id] = ...` silently overwrites the existing entry with
the new caller websocket — `input_id` uniqueness is not enforced. -/
theorem duplicate_input_id_overwrite_behavior
    (agents : List (String × RegisteredAgent)) (pending : List (String × Nat))
    (callerWs oldWs : Nat) (m : DispatchIn) (iid target prompt : String)
    (hT : m.msgType = "INPUT") (hi : m.input_id = some iid)
    (ht : m.toAddr = some target) (hp : m.prompt = some prompt)
    (hi0 : iid ≠ "") (ht0 : target ≠ "") (hp0 : prompt ≠ "")
    (hdup : alook pending iid = some oldWs)
    (hreg : (alook agents target).isSome) :
    (input_endpoint_step agents pending callerWs true m).errorReply = none
    ∧ (input_endpoint_step agents pending callerWs true m).forwarded =
        some (iid, prompt, m.fromAddr.getD "unknown")
    ∧ alook (input_endpoint_step agents pending callerWs true m).pending iid =
        some callerWs := by
  have h1 : truthyS (some iid) = true := by simp [truthyS, hi0]
  have h2 : truthyS (some target) = true := by simp [truthyS, ht0]
  have h3 : truthyS (some prompt) = true := by simp [truthyS, hp0]
  have h4 : (alook agents target).isNone = false := by
    cases h : alook agents target with
    | none => rw [h] at hreg; cases hreg
    | some w => rfl
  simp only [input_endpoint_step, hT, h1, h2, h3, hi, ht, hp, h4,
    Bool.and_self, Bool.not_true, ne_eq, not_true_eq_false, if_false,
    Bool.false_eq_true, if_true]
  refine ⟨?_, ?_, ?_⟩
  · trivial
  · trivial
  · exact alook_aset_self _ _ _

theorem duplicate_input_id_overwrite_behavior_w :
    (input_endpoint_step [("0xaa", rec0)] [("u2", 4)] 8 true
      { msgType := "INPUT", input_id := some "u2", toAddr := some "0xaa"
        prompt := some "go", fromAddr := some "0xcc" }).errorReply = none
    ∧ (input_endpoint_step [("0xaa", rec0)] [("u2", 4)] 8 true
        { msgType := "INPUT", input_id := some "u2", toAddr := some "0xaa"
          prompt := some "go", fromAddr := some "0xcc" }).forwarded =
        some ("u2", "go", "0xcc")
    ∧ alook (input_endpoint_step [("0xaa", rec0)] [("u2", 4)] 8 true
        { msgType := "INPUT", input_id := some "u2", toAddr := some "0xaa"
          prompt := some "go", fromAddr := some "0xcc" }).pending "u2" = some 8 :=
  duplicate_input_id_overwrite_behavior [("0xaa", rec0)] [("u2", 4)] 8 4 _
    "u2" "0xaa" "go" rfl rfl rfl rfl (by decide) (by decide) (by decide) rfl rfl

/-- C8 (counterexample): on a connection bound to `0xaa`, a HEARTBEAT whose
`address` field is the *different* address `0xbb` is neither dropped nor
answered with an ERROR: the bound agent's `last_heartbeat` is updated to
`now` all the same. -/
theorem heartbeat_address_ignored_cex :
    (announce_step idealEd 3 50 ⟨some "0xaa", [("0xaa", rec0)], []⟩
      (.jobj [("type", .jstr "HEARTBEAT"), ("address", .jstr "0xbb")])).errorReply = none
    ∧ alook (announce_step idealEd 3 50 ⟨some "0xaa", [("0xaa", rec0)], []⟩
        (.jobj [("type", .jstr "HEARTBEAT"), ("address", .jstr "0xbb")])).st.agents "0xaa"
      = some { address := "0xaa", summary := .jstr "", endpoints := .jarr []
               wsId := 3, last_announce := 1000, last_heartbeat := 50 } :=
  ⟨rfl, rfl⟩

/-- C8 (amended): on a bound control connection every HEARTBEAT — whatever
its `address` field holds, even nothing — updates the bound agent's
`last_heartbeat` to the current time, and no ERROR is ever sent; the
handler never reads the message's `address` field. -/
theorem heartbeat_updates_regardless_of_address (E : Ed25519) (myWs : Nat)
    (now : Int) (st : CtrlConn) (bound : String) (entry : RegisteredAgent)
    (msg : JVal) (hb : st.agent_address = some bound)
    (he : alook st.agents bound = some entry)
    (ht : jgetStr msg "type" = some "HEARTBEAT") :
    (announce_step E myWs now st msg).errorReply = none
    ∧ alook (announce_step E myWs now st msg).st.agents bound =
        some { entry with last_heartbeat := now } := by
  simp only [announce_step, ht, Option.some.injEq, reduceCtorEq,
    String.reduceEq, if_false, if_true, hb, he]
  exact ⟨trivial, alook_aset_self _ _ _⟩

theorem heartbeat_updates_regardless_of_address_w :
    (announce_step idealEd 4 77 ⟨some "0xcc", [("0xcc", rec0)], []⟩
      (.jobj [("type", .jstr "HEARTBEAT"), ("address", .jstr "0xdd")])).errorReply = none
    ∧ alook (announce_step idealEd 4 77 ⟨some "0xcc", [("0xcc", rec0)], []⟩
        (.jobj [("type", .jstr "HEARTBEAT"), ("address", .jstr "0xdd")])).st.agents "0xcc"
      = some { rec0 with last_heartbeat := 77 } :=
  heartbeat_updates_regardless_of_address idealEd 4 77
    ⟨some "0xcc", [("0xcc", rec0)], []⟩ "0xcc" rec0 _ rfl rfl rfl

/-- C6 (counterexample): one open control connection that validly ANNOUNCEs
address `a` and then validly re-ANNOUNCEs a different address `b` leaves
*two* registry entries behind — the claimed bound
`|registry| ≤ |open control connections|` fails. -/
theorem registry_bound_cex :
    ¬ ((ctrlExec ctrlInit
          [.copen 0, .cannounce 0 "a" true, .cannounce 0 "b" true]).agents.length
        ≤ (ctrlExec ctrlInit
            [.copen 0, .cannounce 0 "a" true, .cannounce 0 "b" true]).conns.length) := by
  decide

/-- C6 (amended): over every trace of opens, valid/invalid ANNOUNCEs and
closes in which no connection validly re-ANNOUNCEs a *different* address
than the one it is bound to, the registry bound
`|registry entries| ≤ |open control connections|` holds; a re-ANNOUNCE with
a different address breaks it because only the currently bound address is
removed when the connection closes. -/
theorem registry_bound_no_rebind (tr : List CtrlEvent)
    (h : noRebind ctrlInit tr = true) :
    (ctrlExec ctrlInit tr).agents.length ≤ (ctrlExec ctrlInit tr).conns.length :=
  ctrlInv_card _ (ctrlInv_exec _ tr ctrlInv_init h)

theorem registry_bound_no_rebind_w :
    noRebind ctrlInit
      [.copen 0, .cannounce 0 "a" true, .copen 1, .cannounce 1 "b" true,
       .cannounce 0 "a" true, .cclose 0] = true
    ∧ (ctrlExec ctrlInit
        [.copen 0, .cannounce 0 "a" true, .copen 1, .cannounce 1 "b" true,
         .cannounce 0 "a" true, .cclose 0]).agents.length
      ≤ (ctrlExec ctrlInit
          [.copen 0, .cannounce 0 "a" true, .copen 1, .cannounce 1 "b" true,
           .cannounce 0 "a" true, .cclose 0]).conns.length :=
  ⟨by decide, registry_bound_no_rebind _ (by decide)⟩

/-- Helper: on an unbound connection, any message whose `type` is not
`ANNOUNCE` draws no reply at all and leaves the registry and the binding
untouched (OUTPUT may still consume a pending entry). -/
theorem announce_step_unbound_other (E : Ed25519) (ws : Nat) (now : Int)
    (st : CtrlConn) (msg : JVal) (hunb : st.agent_address = none)
    (hna : jgetStr msg "type" ≠ some "ANNOUNCE") :
    (announce_step E ws now st msg).errorReply = none
    ∧ (announce_step E ws now st msg).st.agents = st.agents
    ∧ (announce_step E ws now st msg).st.agent_address = none := by
  by_cases hO : jgetStr msg "type" = some "OUTPUT"
  · cases hiid : jgetStr msg "input_id" with
    | none => simp [announce_step, hna, hO, hiid, hunb]
    | some iid =>
      cases hlk : alook st.pending iid with
      | none => simp [announce_step, hna, hO, hiid, hlk, hunb]
      | some w => simp [announce_step, hna, hO, hiid, hlk, hunb]
  · by_cases hH : jgetStr msg "type" = some "HEARTBEAT"
    · simp [announce_step, hna, hO, hH, hunb]
    · simp [announce_step, hna, hO, hH, hunb]

/-- Helper: a message of type `ANNOUNCE` whose signature verifies binds the
connection to the embedded address and writes its registry entry. -/
theorem announce_step_valid_announce (E : Ed25519) (ws : Nat) (now : Int)
    (st : CtrlConn) (msg : JVal) (a : String)
    (htype : jgetStr msg "type" = some "ANNOUNCE")
    (hver : verify_signature E msg = true)
    (haddr : jgetStr msg "address" = some a) :
    (announce_step E ws now st msg).st.agent_address = some a
    ∧ (alook (announce_step E ws now st msg).st.agents a).isSome
    ∧ (announce_step E ws now st msg).errorReply = none := by
  simp [announce_step, htype, hver, haddr, alook_aset_self]

/-- C4 (counterexample): an unbound control connection that receives a
message of unknown type `HELLO` gets *no* ERROR frame — the loop falls
through all branches silently (only a bad-signature ANNOUNCE is answered
with an ERROR). -/
theorem unbound_non_announce_silently_ignored_cex :
    (announce_step idealEd 0 10 ⟨none, [], []⟩
      (.jobj [("type", .jstr "HELLO")])).errorReply = none
    ∧ (announce_step idealEd 0 10 ⟨none, [], []⟩
        (.jobj [("type", .jstr "HELLO")])).st.agents = [] :=
  ⟨rfl, rfl⟩

/-- C4 (amended): on an unbound control connection, an ANNOUNCE whose
signature fails verification is answered `ERROR "Invalid signature"`, while
any message of a different type is silently ignored (no ERROR at all); in
both cases no registry entry is created, the connection stays unbound and
open, and a subsequent correctly signed ANNOUNCE on the same connection
binds it and registers the agent. -/
theorem unbound_control_error_policy (E : Ed25519) (ws : Nat) (now now2 : Int)
    (st : CtrlConn) (msgBad msgGood : JVal) (a : String)
    (hunb : st.agent_address = none)
    (hbad : jgetStr msgBad "type" ≠ some "ANNOUNCE" ∨
            verify_signature E msgBad = false)
    (hgt : jgetStr msgGood "type" = some "ANNOUNCE")
    (hgv : verify_signature E msgGood = true)
    (hga : jgetStr msgGood "address" = some a) :
    (announce_step E ws now st msgBad).errorReply =
      (if jgetStr msgBad "type" = some "ANNOUNCE" then some "Invalid signature"
       else none)
    ∧ (announce_step E ws now st msgBad).st.agents = st.agents
    ∧ (announce_step E ws now st msgBad).st.agent_address = none
    ∧ (announce_step E ws now2 (announce_step E ws now st msgBad).st
        msgGood).st.agent_address = some a
    ∧ (alook (announce_step E ws now2 (announce_step E ws now st msgBad).st
        msgGood).st.agents a).isSome := by
  have hgood := fun st2 => announce_step_valid_announce E ws now2 st2 msgGood a
    hgt hgv hga
  by_cases hA : jgetStr msgBad "type" = some "ANNOUNCE"
  · have hv : verify_signature E msgBad = false := by
      rcases hbad with h | h
      · exact absurd hA h
      · exact h
    have hstep : announce_step E ws now st msgBad =
        ⟨st, some "Invalid signature", none⟩ := by
      simp [announce_step, hA, hv]
    rw [hstep]
    refine ⟨by simp [hA], rfl, hunb, ?_, ?_⟩
    · exact (hgood st).1
    · exact (hgood st).2.1
  · obtain ⟨e1, e2, e3⟩ := announce_step_unbound_other E ws now st msgBad hunb hA
    refine ⟨by simp [hA, e1], e2, e3, ?_, ?_⟩
    · exact (hgood _).1
    · exact (hgood _).2.1

/-! ## Helper lemmas about hex strings and the signer/verifier pair -/

theorem bytesToHex_ne_empty (bs : List Nat) (h : bs ≠ []) : bytesToHex bs ≠ "" := by
  cases bs with
  | nil => exact absurd rfl h
  | cons b r =>
    intro he
    have hdata : (bytesToHex (b :: r)).data = "".data := by rw [he]
    simp [bytesToHex, bytesToHexChars, byteToHex] at hdata

theorem bytesToHex_no_0x (bs : List Nat) :
    pyStartswith (bytesToHex bs) "0x" = false := by
  cases hp : pyStartswith (bytesToHex bs) "0x" with
  | false => rfl
  | true =>
    exfalso
    have hpre : "0x".data <+: (bytesToHex bs).data :=
      List.isPrefixOf_iff_prefix.mp hp
    obtain ⟨t, ht⟩ := hpre
    have hx : ('x' : Char) ∈ (bytesToHex bs).data := by
      rw [← ht]
      exact List.mem_append.mpr (Or.inl (by decide))
    have hmem := bytesToHexChars_subset bs 'x' hx
    exact absurd hmem (by decide)

theorem append_0x_ne_empty (s : String) : "0x" ++ s ≠ "" := by
  intro h
  have hdata : ("0x" ++ s).data = ([] : List Char) := by rw [h]
  rw [String.data_append] at hdata
  simp at hdata

theorem strLen_0x_hex (pk : List Nat) (h : pk.length = 32) :
    strLen ("0x" ++ bytesToHex pk) = 66 := by
  show (("0x" ++ bytesToHex pk)).data.length = 66
  rw [String.data_append, List.length_append]
  simp [bytesToHex, length_bytesToHexChars, h]

/-- Helper: `address.verify` accepts a signature by the seed whose verify
key the address encodes.  The two numeric hypotheses are facts of the real
library (a 32-byte public key with byte values below 256). -/
theorem verify_of_pub (E : Ed25519) (sk : List Nat) (m : String)
    (hlen : (E.pub sk).length = 32) (hrange : ∀ b ∈ E.pub sk, b < 256) :
    Address.verify E ("0x" ++ bytesToHex (E.pub sk)) m (E.sigOf sk m) = true := by
  unfold Address.verify
  have h1 : pyStartswith ("0x" ++ bytesToHex (E.pub sk)) "0x" = true :=
    pyStartswith_append _ _
  have h2 : strLen ("0x" ++ bytesToHex (E.pub sk)) = 66 := strLen_0x_hex _ hlen
  rw [if_neg (by simp [h1, h2])]
  rw [strDrop_0x, hexToBytes_bytesToHex _ hrange]
  show (if (E.pub sk).length = 32 then E.verifies (E.pub sk) m (E.sigOf sk m)
    else false) = true
  rw [if_pos hlen]
  exact E.verify_sign sk m

/-- Helper: the field list of `create_announce_message` minus its
`signature` field is the message that was serialized and signed. -/
theorem jremove_create (E : Ed25519) (ad : AddressData) (summary : String)
    (endpoints : List String) (ts : Int) :
    jremove (create_announce_message E ad summary endpoints ts) "signature" =
      announceBase ad.address ts summary endpoints := rfl

/-- Helper: the broker's `verify_signature` accepts every message built by
`create_announce_message` for an identity whose address encodes its own
verify key — signer and verifier serialize the same bytes.  The numeric
hypotheses are facts of the real library (32-byte key, byte values below
256, non-empty 64-byte signature). -/
theorem verify_signature_create (E : Ed25519) (ad : AddressData)
    (summary : String) (endpoints : List String) (ts : Int)
    (haddr : ad.address = "0x" ++ bytesToHex (E.pub ad.signing_key))
    (hpklen : (E.pub ad.signing_key).length = 32)
    (hpkrange : ∀ b ∈ E.pub ad.signing_key, b < 256)
    (hsigrange : ∀ b ∈ E.sigOf ad.signing_key
        (pyDumpsSorted (announceBase ad.address ts summary endpoints)), b < 256)
    (hsignonempty : E.sigOf ad.signing_key
        (pyDumpsSorted (announceBase ad.address ts summary endpoints)) ≠ []) :
    verify_signature E (create_announce_message E ad summary endpoints ts) = true := by
  obtain ⟨addr, sa, em, ea, sp, sk⟩ := ad
  dsimp only at haddr hpklen hpkrange hsigrange hsignonempty
  subst haddr
  have h1 : jgetStr (create_announce_message E
        ⟨"0x" ++ bytesToHex (E.pub sk), sa, em, ea, sp, sk⟩ summary endpoints ts)
        "signature" =
      some (bytesToHex (E.sigOf sk (pyDumpsSorted
        (announceBase ("0x" ++ bytesToHex (E.pub sk)) ts summary endpoints)))) := rfl
  have h2 : jgetStr (create_announce_message E
        ⟨"0x" ++ bytesToHex (E.pub sk), sa, em, ea, sp, sk⟩ summary endpoints ts)
        "address" =
      some ("0x" ++ bytesToHex (E.pub sk)) := rfl
  simp only [verify_signature, h1, h2]
  rw [if_neg (not_or.mpr ⟨bytesToHex_ne_empty _ hsignonempty,
    append_0x_ne_empty _⟩)]
  rw [bytesToHex_no_0x]
  simp only [Bool.false_eq_true, if_false, pyStartswith_append, if_true]
  rw [strDrop_0x, hexToBytes_bytesToHex _ hsigrange,
    hexToBytes_bytesToHex _ hpkrange]
  show (if (E.pub sk).length = 32 then
      E.verifies (E.pub sk)
        (pyDumpsSorted (jremove (create_announce_message E
          ⟨"0x" ++ bytesToHex (E.pub sk), sa, em, ea, sp, sk⟩ summary endpoints ts)
          "signature"))
        (E.sigOf sk (pyDumpsSorted
          (announceBase ("0x" ++ bytesToHex (E.pub sk)) ts summary endpoints)))
    else false) = true
  rw [if_pos hpklen, jremove_create]
  exact E.verify_sign _ _

/-- C1 (counterexample): the bytes `create_announce_message` signs are
`json.dumps(msg, sort_keys=True)` with Python's *default* separators — a
space after every comma and colon — and therefore differ from the spec's
"no insignificant whitespace" canonical form already on a small concrete
ANNOUNCE. -/
theorem announce_signed_bytes_not_compact :
    announceSignedBytes "0xab" 1000 "hi" [] ≠
      specCanonDumps (announceBase "0xab" 1000 "hi" []) := by
  decide

/-- C1 (amended): the bytes signed (and re-derived by the broker's verifier)
are the `sort_keys=True` JSON serialization of the message without its
`signature` field — keys sorted lexicographically at every nesting level but
with Python's default separators, i.e. one space after every comma and
colon; the attached signature is the lowercase hex encoding (two hex digits
per signature byte, hex alphabet only) with no `0x` prefix, and the broker's
`verify_signature` accepts the message, reconstructing exactly the signed
bytes. -/
theorem announce_signature_canonical_sorted_python (E : Ed25519)
    (ad : AddressData) (summary : String) (endpoints : List String) (ts : Int)
    (haddr : ad.address = "0x" ++ bytesToHex (E.pub ad.signing_key))
    (hpklen : (E.pub ad.signing_key).length = 32)
    (hpkrange : ∀ b ∈ E.pub ad.signing_key, b < 256)
    (hsigrange : ∀ b ∈ E.sigOf ad.signing_key
        (announceSignedBytes ad.address ts summary endpoints), b < 256)
    (hsignonempty : E.sigOf ad.signing_key
        (announceSignedBytes ad.address ts summary endpoints) ≠ []) :
    jremove (create_announce_message E ad summary endpoints ts) "signature" =
      announceBase ad.address ts summary endpoints
    ∧ jgetStr (create_announce_message E ad summary endpoints ts) "signature" =
        some (bytesToHex (E.sigOf ad.signing_key
          (announceSignedBytes ad.address ts summary endpoints)))
    ∧ (∀ c ∈ (bytesToHex (E.sigOf ad.signing_key
          (announceSignedBytes ad.address ts summary endpoints))).data,
        c ∈ hexDigitChars)
    ∧ pyStartswith (bytesToHex (E.sigOf ad.signing_key
          (announceSignedBytes ad.address ts summary endpoints))) "0x" = false
    ∧ strLen (bytesToHex (E.sigOf ad.signing_key
          (announceSignedBytes ad.address ts summary endpoints)))
        = 2 * (E.sigOf ad.signing_key
            (announceSignedBytes ad.address ts summary endpoints)).length
    ∧ verify_signature E (create_announce_message E ad summary endpoints ts) = true := by
  refine ⟨jremove_create E ad summary endpoints ts, rfl, ?_, ?_, ?_, ?_⟩
  · exact fun c hc => bytesToHexChars_subset _ c hc
  · exact bytesToHex_no_0x _
  · exact length_bytesToHexChars _
  · exact verify_signature_create E ad summary endpoints ts haddr hpklen
      hpkrange hsigrange hsignonempty

theorem announce_signature_canonical_sorted_python_w :
    verify_signature idealEd (create_announce_message idealEd ad0 "s" [] 1000) = true :=
  (announce_signature_canonical_sorted_python idealEd ad0 "s" [] 1000 rfl
    (by decide) (by decide) (by decide) (by decide)).2.2.2.2.2

/-- C5 (code bug evidence): on the heartbeat timeout `serve_loop` refreshes
only the `timestamp` field and resends with the *old* signature (the source
comment reads "TODO: Re-sign message with new timestamp"), so the resent
heartbeat-announce fails the broker's signature verification even though the
original message verified. -/
theorem heartbeat_reannounce_stale_signature :
    jgetStr (serve_loop_heartbeat
        (create_announce_message idealEd ad0 "s" [] 1000) 2000) "signature"
      = jgetStr (create_announce_message idealEd ad0 "s" [] 1000) "signature"
    ∧ jgetNum (serve_loop_heartbeat
        (create_announce_message idealEd ad0 "s" [] 1000) 2000) "timestamp"
      = some 2000
    ∧ verify_signature idealEd (create_announce_message idealEd ad0 "s" [] 1000) = true
    ∧ verify_signature idealEd (serve_loop_heartbeat
        (create_announce_message idealEd ad0 "s" [] 1000) 2000) = false := by
  refine ⟨rfl, rfl, ?_, ?_⟩
  · exact verify_signature_create idealEd ad0 "s" [] 1000 rfl
      (by decide) (by decide) (by decide) (by decide)
  · decide

/-- C7: recovering from the mnemonic a `generate` call produced yields the
same address (both derive the signing seed as the first 32 bytes of the
deterministic seed expansion and render the address from the same verify
key), and a message signed with the recovered key verifies against the
original address.  `hchk` holds because `mnemo.generate` only emits
checksum-valid phrases; the numeric hypotheses are facts of the real
Ed25519 library. -/
theorem recovery_roundtrip_verifies (M : Bip39) (E : Ed25519) (phrase m : String)
    (hchk : M.check phrase = true)
    (hlen : (E.pub ((M.toSeed phrase).take 32)).length = 32)
    (hrange : ∀ b ∈ E.pub ((M.toSeed phrase).take 32), b < 256) :
    ∃ r, Address.recover M E phrase = .ok r
      ∧ r.address = (Address.generate M E phrase).address
      ∧ Address.verify E (Address.generate M E phrase).address m
          (Address.sign E r m) = true := by
  unfold Address.recover
  rw [if_neg (by simp [hchk])]
  refine ⟨_, rfl, rfl, ?_⟩
  exact verify_of_pub E ((M.toSeed phrase).take 32) m hlen hrange

theorem recovery_roundtrip_verifies_w :
    ∃ r, Address.recover idealMnemo idealEd "abc def" = .ok r
      ∧ r.address = (Address.generate idealMnemo idealEd "abc def").address
      ∧ Address.verify idealEd (Address.generate idealMnemo idealEd "abc def").address
          "hello" (Address.sign idealEd r "hello") = true :=
  recovery_roundtrip_verifies idealMnemo idealEd "abc def" "hello" rfl
    (by decide) (by decide)

theorem unbound_control_error_policy_w :
    (announce_step idealEd 0 1 ⟨none, [], []⟩
        (.jobj [("type", .jstr "FOO")])).errorReply =
      (if jgetStr (.jobj [("type", .jstr "FOO")]) "type" = some "ANNOUNCE"
       then some "Invalid signature" else none)
    ∧ (announce_step idealEd 0 1 ⟨none, [], []⟩
        (.jobj [("type", .jstr "FOO")])).st.agents = ([] : List (String × RegisteredAgent))
    ∧ (announce_step idealEd 0 1 ⟨none, [], []⟩
        (.jobj [("type", .jstr "FOO")])).st.agent_address = none
    ∧ (announce_step idealEd 0 2
        (announce_step idealEd 0 1 ⟨none, [], []⟩
          (.jobj [("type", .jstr "FOO")])).st
        (create_announce_message idealEd ad0 "s" [] 5)).st.agent_address = some ad0.address
    ∧ (alook (announce_step idealEd 0 2
        (announce_step idealEd 0 1 ⟨none, [], []⟩
          (.jobj [("type", .jstr "FOO")])).st
        (create_announce_message idealEd ad0 "s" [] 5)).st.agents ad0.address).isSome :=
  unbound_control_error_policy idealEd 0 1 2 ⟨none, [], []⟩
    (.jobj [("type", .jstr "FOO")]) (create_announce_message idealEd ad0 "s" [] 5)
    ad0.address rfl (Or.inl (by decide)) rfl
    (verify_signature_create idealEd ad0 "s" [] 5 rfl
      (by decide) (by decide) (by decide) (by decide)) rfl

end Shadowbar
